import Mathlib

/-!
Verification development for the SlideGenX generation/edit orchestration
pipeline and its web front-end helpers.

The repository snapshot contains the front-end sources (hooks and pages)
but not the Python back-end under libs/ (orchestrator.py,
slide_edit_orchestrator.py, the agents).  The back-end definitions below
are therefore modelled from the specification document and from the
repository README (which documents the orchestrator entry points, their
response envelopes and the fixed error-message vocabulary).  The
front-end definitions (isValidSessionId, getSlideImageUrl, the
slide-page fetch guard) are translated directly from
src/hooks/use-get-slides.ts and src/app/slide/[id]/page.tsx.
-/

namespace SlideGenX

/-- Modelled from the spec: Brief = {topic, audience, duration_minutes,
purpose, template_reference}, plus the --output CLI path consumed by the
generation run. -/
structure Brief where
  topic : String
  audience : String
  duration_minutes : Nat
  purpose : String
  template_reference : String
  output_path : String
deriving Repr, DecidableEq

/-- Modelled from the spec: SlideStub = {title, talking_points}; the
index within its section is positional. -/
structure SlideStub where
  title : String
  talking_points : List String
deriving Repr, DecidableEq

/-- Modelled from the spec: Section = {index (positional), slide_stubs};
the index is the position of the section in the outline. -/
structure Section where
  slide_stubs : List SlideStub
deriving Repr, DecidableEq

/-- Modelled from the spec: Outline = {title, sections}. -/
structure Outline where
  title : String
  sections : List Section
deriving Repr, DecidableEq

/-- The part of a SlideContent produced by the Slide Content Expander
before addressing and enrichment: title, content, notes, keywords
(shape documented in the README edit-response new_content object). -/
structure SlideCore where
  title : String
  content : List String
  notes : String
  keywords : List String
deriving Repr, DecidableEq

/-- Modelled from the spec: SlideContent = {section_index,
slide_index_in_section, global_slide_index, title, content, notes,
keywords, has_images, has_diagrams, optional diagram spec, optional
image reference}. -/
structure SlideContent where
  section_index : Nat
  slide_index_in_section : Nat
  global_slide_index : Nat
  title : String
  content : List String
  notes : String
  keywords : List String
  has_images : Bool
  has_diagrams : Bool
  diagram : Option String
  image : Option String
deriving Repr, DecidableEq

/-- Outcome of one enrichment agent on one slide: the agent can fail,
decide that no artifact is warranted, or produce an artifact.  Modelled
from the spec: enrich(SlideContent) -> SlideContent' | no-op, with
best-effort failure. -/
inductive EnrichOutcome where
  | failed
  | not_warranted
  | artifact (art : String)
deriving Repr, DecidableEq

/-- The external-facing response envelope {status, message, data} from
the README; an absent data payload stands for the empty JSON object. -/
structure Envelope (α : Type) where
  status : String
  message : String
  data : Option α
deriving Repr, DecidableEq

/-- Metadata block of the generation success envelope, from the README:
topic, audience, duration, purpose, total_slides, parallel_processing. -/
structure GenMetadata where
  topic : String
  audience : String
  duration : Nat
  purpose : String
  total_slides : Nat
  parallel_processing : Bool
deriving Repr, DecidableEq

/-- Success payload of generate_presentation, from the README: outline,
slides, metadata. -/
structure GenData where
  outline : Outline
  slides : List SlideContent
  metadata : GenMetadata
deriving Repr, DecidableEq

/-- Modelled from the spec: Session = {session_id, brief, outline,
flattened ordered SlideContent list, template_reference, output_path}. -/
structure Session where
  session_id : String
  brief : Brief
  outline : Outline
  slides : List SlideContent
  template_reference : String
  output_path : String
deriving Repr, DecidableEq

/-- The durable state produced by one generation run and mutated by the
edit path: the persisted Session record plus the assembled presentation
document, modelled as the ordered list of per-slide rendered byte
blobs. -/
structure Deck where
  session : Session
  document : List String
deriving Repr, DecidableEq

/-- Success payload of edit_slide, from the README: section_index,
slide_index, new_content, slide_path, merged_presentation_path. -/
structure EditData where
  section_index : Nat
  slide_index : Nat
  new_content : SlideCore
  slide_path : String
  merged_presentation_path : String
deriving Repr, DecidableEq

/-- States of the generation orchestrator state machine (spec 4.5). -/
inductive GenState where
  | BRIEF_RECEIVED
  | OUTLINE_READY
  | SLIDES_EXPANDING
  | SLIDES_ENRICHING
  | ASSEMBLING
  | DONE
  | FAILED
deriving Repr, DecidableEq

/-- Modelled from the spec: the injected external collaborators (design
note: explicit dependency injection, one interface handle per
capability).  Each fallible collaborator returns an Option. -/
structure Orchestrator where
  synthesize : Brief → Option Outline
  expand : SlideStub → Option SlideCore
  expand_edit : SlideContent → String → Option SlideCore
  diagram_agent : SlideContent → EnrichOutcome
  image_agent : SlideContent → EnrichOutcome
  render : SlideContent → Option String
  fresh_session_id : String

/-- Result of one generation run: the envelope handed to the caller,
the sequence of orchestrator states traversed, and the persisted deck
(session + assembled document), present only on success. -/
structure GenOutcome where
  envelope : Envelope GenData
  trace : List GenState
  deck : Option Deck
deriving Repr, DecidableEq

/-- Result of one edit call: the envelope handed to the caller and the
persisted deck after the call (unchanged on failure). -/
structure EditOutcome where
  envelope : Envelope EditData
  deck : Deck
deriving Repr, DecidableEq

/-- An error envelope: status error, empty data object. -/
def errEnv {α : Type} (msg : String) : Envelope α :=
  { status := "error", message := msg, data := none }

/-- Stubs of one section paired with their (section_index,
slide_index_in_section) addresses, slide indices counted from j. -/
def sectionStubsFrom (i : Nat) : Nat → List SlideStub → List ((Nat × Nat) × SlideStub)
  | _, [] => []
  | j, st :: rest => ((i, j), st) :: sectionStubsFrom i (j + 1) rest

/-- All stubs of a section list paired with addresses, sections counted
from i. -/
def stubsFrom : Nat → List Section → List ((Nat × Nat) × SlideStub)
  | _, [] => []
  | i, sec :: rest => sectionStubsFrom i 0 sec.slide_stubs ++ stubsFrom (i + 1) rest

/-- The ordered stub graph of an outline: every slide stub paired with
its stable (section_index, slide_index_in_section) address. -/
def stubsWithAddr (o : Outline) : List ((Nat × Nat) × SlideStub) :=
  stubsFrom 0 o.sections

/-- Expansion of one stub at its address into a SlideContent (spec 4.2):
content fields from the expander, address fields from the stub,
enrichment flags initially false, global index assigned later. -/
def expand_stub (env : Orchestrator) (a : Nat × Nat) (st : SlideStub) : Option SlideContent :=
  (env.expand st).map fun c =>
    { section_index := a.1
      slide_index_in_section := a.2
      global_slide_index := 0
      title := c.title
      content := c.content
      notes := c.notes
      keywords := c.keywords
      has_images := false
      has_diagrams := false
      diagram := none
      image := none }

/-- Fan-out of the Content Expander over every stub (spec 4.5,
SLIDES_EXPANDING); per-stub failures are dropped, not fatal. -/
def expand_all (env : Orchestrator) (o : Outline) : List SlideContent :=
  (stubsWithAddr o).filterMap fun p => expand_stub env p.1 p.2

/-- Test whether a slide carries the given (section_index,
slide_index_in_section) address. -/
def keyIs (a : Nat × Nat) (s : SlideContent) : Bool :=
  s.section_index == a.1 && s.slide_index_in_section == a.2

/-- Re-ordering of the collected per-slide results by (section_index,
slide_index_in_section), derived from the stub addresses and never from
completion order (spec 5). -/
def reorder (o : Outline) (l : List SlideContent) : List SlideContent :=
  (stubsWithAddr o).filterMap fun p => l.find? (keyIs p.1)

/-- Recomputation of global_slide_index (and of the within-section
running index) so that the surviving slides are contiguous: gaps left
by dropped slides are closed (spec 4.5, SLIDES_ENRICHING to
ASSEMBLING, and the spec 3 invariant). -/
def recompute_indices (l : List SlideContent) : List SlideContent :=
  l.enum.map fun gs =>
    { gs.2 with
      global_slide_index := gs.1
      slide_index_in_section :=
        ((l.take gs.1).filter fun t => t.section_index == gs.2.section_index).length }

/-- Application of the diagram enrichment agent to one slide (spec 4.3):
an artifact sets has_diagrams, a no-op or an agent failure leaves the
slide unchanged. -/
def apply_diagram (env : Orchestrator) (s : SlideContent) : SlideContent :=
  match env.diagram_agent s with
  | EnrichOutcome.artifact d => { s with has_diagrams := true, diagram := some d }
  | _ => s

/-- Application of the image enrichment agent to one slide (spec 4.3). -/
def apply_image (env : Orchestrator) (s : SlideContent) : SlideContent :=
  match env.image_agent s with
  | EnrichOutcome.artifact im => { s with has_images := true, image := some im }
  | _ => s

/-- Best-effort enrichment of one slide: both agents run and the slide
is handed on whatever their outcome (spec 4.3). -/
def enrich_slide (env : Orchestrator) (s : SlideContent) : SlideContent :=
  apply_image env (apply_diagram env s)

/-- The Presentation Assembler (spec 4.4): renders every slide in the
given order into the output document (one rendered blob per slide); a
renderer failure on slide i is the assembly failure detail. -/
def assemble_document (env : Orchestrator) : List SlideContent → Except String (List String)
  | [] => Except.ok []
  | s :: rest =>
    match env.render s with
    | none => Except.error ("slide " ++ toString s.global_slide_index)
    | some bytes =>
      match assemble_document env rest with
      | Except.error e => Except.error e
      | Except.ok doc => Except.ok (bytes :: doc)

/-- The final ordered slide set handed to the Assembler: the collected
expansion results re-ordered by stub address, indices recomputed over
the survivors, then enriched best-effort (spec 4.5). -/
def final_slides (env : Orchestrator) (o : Outline)
    (collected : List SlideContent) : List SlideContent :=
  (recompute_indices (reorder o collected)).map (enrich_slide env)

/-- Modelled from the spec: TreeOfThoughtOrchestrator.generate_presentation
(libs/orchestration/orchestrator.py, absent from the snapshot), per
spec 4.5 and the README response contract.  The scheduler argument
models the completion order of the concurrent per-slide tasks: the
collected expansion results are observed in the order sched produces
(sequential mode passes the identity).  Stages: outline synthesis,
per-stub expansion (all failing aborts the run), re-ordering by stub
addresses with index recomputation, best-effort enrichment, assembly,
session persistence. -/
def generate_presentation (env : Orchestrator)
    (sched : List SlideContent → List SlideContent) (parallel : Bool)
    (brief : Brief) : GenOutcome :=
  match env.synthesize brief with
  | none =>
    { envelope := errEnv "Failed to generate presentation outline"
      trace := [GenState.BRIEF_RECEIVED, GenState.FAILED]
      deck := none }
  | some outline =>
    if sched (expand_all env outline) = [] then
      { envelope := errEnv "Failed to generate any valid slides"
        trace := [GenState.BRIEF_RECEIVED, GenState.OUTLINE_READY,
                  GenState.SLIDES_EXPANDING, GenState.FAILED]
        deck := none }
    else
      match assemble_document env (final_slides env outline (sched (expand_all env outline))) with
      | Except.error d =>
        { envelope := errEnv ("Failed to merge presentation slides: " ++ d)
          trace := [GenState.BRIEF_RECEIVED, GenState.OUTLINE_READY,
                    GenState.SLIDES_EXPANDING, GenState.SLIDES_ENRICHING,
                    GenState.ASSEMBLING, GenState.FAILED]
          deck := none }
      | Except.ok doc =>
        { envelope :=
            { status := "success"
              message := "Successfully generated presentation with " ++
                toString (final_slides env outline (sched (expand_all env outline))).length ++
                " slides"
              data := some
                { outline := outline
                  slides := final_slides env outline (sched (expand_all env outline))
                  metadata :=
                    { topic := brief.topic
                      audience := brief.audience
                      duration := brief.duration_minutes
                      purpose := brief.purpose
                      total_slides :=
                        (final_slides env outline (sched (expand_all env outline))).length
                      parallel_processing := parallel } } }
          trace := [GenState.BRIEF_RECEIVED, GenState.OUTLINE_READY,
                    GenState.SLIDES_EXPANDING, GenState.SLIDES_ENRICHING,
                    GenState.ASSEMBLING, GenState.DONE]
          deck := some
            { session :=
                { session_id := env.fresh_session_id
                  brief := brief
                  outline := outline
                  slides := final_slides env outline (sched (expand_all env outline))
                  template_reference := brief.template_reference
                  output_path := brief.output_path }
              document := doc } }

/-- Number of stored slides of a session that belong to one section. -/
def count_in_section (slides : List SlideContent) (sec : Nat) : Nat :=
  (slides.filter fun s => s.section_index == sec).length

/-- Lookup of the stored SlideContent at one (section_index,
slide_index_in_section) address. -/
def find_slide (slides : List SlideContent) (sec sli : Nat) : Option SlideContent :=
  slides.find? (keyIs (sec, sli))

/-- The replacement SlideContent produced by the edit path: the prior
content record at the address with the regenerated title, content,
notes and keywords, enrichment artifacts cleared before re-enrichment
(spec 4.2 edit contract: structural compatibility preserved). -/
def regenerate (old : SlideContent) (core : SlideCore) : SlideContent :=
  { old with
    title := core.title
    content := core.content
    notes := core.notes
    keywords := core.keywords
    has_images := false
    has_diagrams := false
    diagram := none
    image := none }

/-- Modelled from the spec: SlideEditOrchestrator.edit_slide
(libs/orchestration/slide_edit_orchestrator.py, absent from the
snapshot), per spec 4.6 and the README response contract, operating on
a loaded Deck.  Address validation, content regeneration with the edit
prompt and the prior content as context, re-enrichment, single-slide
render, splice of the rendered slide into the document at the original
global position, and atomic replacement of the stored SlideContent; on
any failure the deck is returned unchanged. -/
def edit_slide (env : Orchestrator) (deck : Deck) (sec sli : Nat)
    (edit_prompt : String) (merge_output_path : Option String) : EditOutcome :=
  let sess := deck.session
  if sec < sess.outline.sections.length ∧ sli < count_in_section sess.slides sec then
    match find_slide sess.slides sec sli with
    | none => { envelope := errEnv "Slide or section not found", deck := deck }
    | some old =>
      match env.expand_edit old edit_prompt with
      | none => { envelope := errEnv "Failed to generate new slide content", deck := deck }
      | some core =>
        let new_slide := enrich_slide env (regenerate old core)
        match env.render new_slide with
        | none => { envelope := errEnv "Failed to generate new slide", deck := deck }
        | some bytes =>
          let merged := deck.document.set old.global_slide_index bytes
          let new_slides := sess.slides.map fun s =>
            if keyIs (sec, sli) s then new_slide else s
          let out_path := merge_output_path.getD sess.output_path
          { envelope :=
              { status := "success"
                message := "Slide edited successfully"
                data := some
                  { section_index := sec
                    slide_index := sli
                    new_content := core
                    slide_path := "edited_slide.pptx"
                    merged_presentation_path := out_path } }
            deck :=
              { session := { sess with slides := new_slides }
                document := merged } }
  else
    { envelope := errEnv "Invalid section or slide index", deck := deck }

/-- The fixed generation-path failure vocabulary from the README. -/
def genVocab (m : String) : Prop :=
  m = "Failed to generate presentation outline" ∨
  m = "Failed to generate any valid slides" ∨
  (∃ d, m = "Failed to merge presentation slides: " ++ d) ∨
  (∃ d, m = "Failed to generate presentation: " ++ d)

/-- The fixed edit-path failure vocabulary from the README. -/
def editVocab (m : String) : Prop :=
  m = "Invalid section or slide index" ∨
  m = "Slide or section not found" ∨
  m = "Failed to generate new slide content" ∨
  m = "Failed to generate new slide" ∨
  (∃ d, m = "Error editing slide: " ++ d)

/-- The spec 3 SlideContent invariant, as a decidable check over a
flattened deck: every slide carries global_slide_index equal to the
number of slides in all preceding sections plus its
slide_index_in_section. -/
def slideInvariant (l : List SlideContent) : Bool :=
  l.all fun s =>
    s.global_slide_index ==
      ((l.filter fun t => t.section_index < s.section_index).length +
        s.slide_index_in_section)

/-- Decidable well-formedness of a persisted deck: one rendered blob
per stored slide, and every stored slide sits at the document position
named by its global_slide_index. -/
def deckWF (d : Deck) : Bool :=
  d.session.slides.length == d.document.length &&
    d.session.slides.enum.all fun gs => gs.2.global_slide_index == gs.1

/-- Strict lexicographic order on addressed stubs: earlier section, or
same section and earlier slide position. -/
def addrLt (x y : (Nat × Nat) × SlideStub) : Prop :=
  x.1.1 < y.1.1 ∨ (x.1.1 = y.1.1 ∧ x.1.2 < y.1.2)

/-- Strict lexicographic order on the stub-derived addresses of two
slide contents. -/
def keyLt (x y : SlideContent) : Prop :=
  x.section_index < y.section_index ∨
    (x.section_index = y.section_index ∧
      x.slide_index_in_section < y.slide_index_in_section)

/-- Weak order by section index. -/
def secLe (x y : SlideContent) : Prop :=
  x.section_index ≤ y.section_index

/-- A default slide record, used only to spell out concrete witnesses. -/
def emptySlide : SlideContent :=
  { section_index := 0
    slide_index_in_section := 0
    global_slide_index := 0
    title := ""
    content := []
    notes := ""
    keywords := []
    has_images := false
    has_diagrams := false
    diagram := none
    image := none }

/-- A default generation payload, used only to spell out concrete
witnesses. -/
def emptyGenData : GenData :=
  { outline := { title := "", sections := [] }
    slides := []
    metadata :=
      { topic := ""
        audience := ""
        duration := 0
        purpose := ""
        total_slides := 0
        parallel_processing := false } }

/-- Case-insensitive hexadecimal digit, the character class [0-9a-f]
under the /i flag of the UUID regex in src/hooks/use-get-slides.ts. -/
def isHexCI (c : Char) : Bool :=
  (decide ('0' ≤ c) && decide (c ≤ '9')) ||
  (decide ('a' ≤ c) && decide (c ≤ 'f')) ||
  (decide ('A' ≤ c) && decide (c ≤ 'F'))

/-- Consume exactly n case-insensitive hex characters, returning the
rest of the input; none when the input is too short or holds a non-hex
character. -/
def hexRun : Nat → List Char → Option (List Char)
  | 0, cs => some cs
  | _ + 1, [] => none
  | n + 1, c :: cs => if isHexCI c then hexRun n cs else none

/-- Consume one dash. -/
def dashRun : List Char → Option (List Char)
  | [] => none
  | c :: cs => if c = '-' then some cs else none

/-- The anchored 8-4-4-4-12 UUID regex of use-get-slides.ts as a
character-list matcher: the whole input must be consumed. -/
def uuidMatch (cs : List Char) : Bool :=
  (((((((((hexRun 8 cs).bind dashRun).bind (hexRun 4)).bind dashRun).bind
      (hexRun 4)).bind dashRun).bind (hexRun 4)).bind dashRun).bind
      (hexRun 12)) == some []

/-- From src/hooks/use-get-slides.ts lines 377-382: basic UUID
validation by the anchored case-insensitive 8-4-4-4-12 regex. -/
def isValidSessionId (sessionId : String) : Bool :=
  uuidMatch sessionId.data

/-- From src/app/slide/[id]/page.tsx lines 73-104: the loadSlideInfo
effect fetches slide info only once authentication has finished
loading, the user is authenticated, and isValidSessionId accepts the
route id; otherwise it returns without fetching. -/
def shouldFetchSlideInfo (isAuthLoading isAuthenticated : Bool) (id : String) : Bool :=
  !isAuthLoading && isAuthenticated && isValidSessionId id

/-- The shape the claim ascribes to session ids: five dash-separated
groups of case-insensitive hex characters of lengths 8, 4, 4, 4, 12. -/
def UuidShaped (s : String) : Prop :=
  ∃ a b c d e : List Char,
    s.data = a ++ '-' :: (b ++ '-' :: (c ++ '-' :: (d ++ '-' :: e))) ∧
    a.length = 8 ∧ b.length = 4 ∧ c.length = 4 ∧ d.length = 4 ∧ e.length = 12 ∧
    (∀ ch ∈ a, isHexCI ch = true) ∧ (∀ ch ∈ b, isHexCI ch = true) ∧
    (∀ ch ∈ c, isHexCI ch = true) ∧ (∀ ch ∈ d, isHexCI ch = true) ∧
    (∀ ch ∈ e, isHexCI ch = true)

/-- From src/hooks/use-get-slides.ts lines 396-401: the public preview
image URL for one slide of a session; API_BASE_URL is passed explicitly
because in the source it is an environment-dependent module constant. -/
def getSlideImageUrl (apiBaseUrl sessionId : String) (slideIndex : Nat) : String :=
  apiBaseUrl ++ "/image/" ++ sessionId ++ "/images/page_" ++
    toString (slideIndex + 1) ++ ".png"

/-- The URL shape the claim ascribes to getSlideImageUrl, assembled by
joining the documented pieces, with the 1-based page number made
explicit. -/
def claimedSlideImageUrl (apiBaseUrl sessionId : String) (pageNumber : Nat) : String :=
  String.join [apiBaseUrl, "/image/", sessionId, "/images/page_",
    toString pageNumber, ".png"]

/-- The fixture outline used by the concrete witnesses: two sections,
the first with two stubs and the second with one. -/
def fixtureOutline : Outline :=
  { title := "Fixture Deck"
    sections :=
      [ { slide_stubs :=
            [ { title := "A", talking_points := ["a1"] }
            , { title := "B", talking_points := ["b1"] } ] }
      , { slide_stubs := [ { title := "C", talking_points := ["c1"] } ] } ] }

/-- A deterministic fixture collaborator set used by the concrete
witnesses: total expander and renderer, image agent attaching an
artifact, diagram agent failing on every slide whose title is "B". -/
def fixtureEnv : Orchestrator :=
  { synthesize := fun _ => some fixtureOutline
    expand := fun st => some
      { title := st.title
        content := st.talking_points
        notes := "notes " ++ st.title
        keywords := [st.title]
      }
    expand_edit := fun old prompt => some
      { title := old.title
        content := [prompt]
        notes := old.notes
        keywords := old.keywords }
    diagram_agent := fun s =>
      if s.title == "B" then EnrichOutcome.failed else EnrichOutcome.not_warranted
    image_agent := fun s => EnrichOutcome.artifact ("img " ++ s.title)
    render := fun s => some ("bytes " ++ s.title)
    fresh_session_id := "123e4567-e89b-12d3-a456-426614174000" }

/-- The fixture brief used by the concrete witnesses. -/
def fixtureBrief : Brief :=
  { topic := "Solar Energy"
    audience := "SMBs"
    duration_minutes := 20
    purpose := "education"
    template_reference := "pptx_templates/Geometric.pptx"
    output_path := "presentation.pptx" }

/-- The deck persisted by the fixture generation run, used as the
concrete pre-edit state by the edit witnesses. -/
def fixtureDeck : Deck :=
  (generate_presentation fixtureEnv id false fixtureBrief).deck.getD
    { session :=
        { session_id := ""
          brief := fixtureBrief
          outline := { title := "", sections := [] }
          slides := []
          template_reference := ""
          output_path := "" }
      document := [] }

/-- A collaborator set whose expander fails on every stub, used by the
all-slides-fail witness. -/
def allFailEnv : Orchestrator :=
  { fixtureEnv with expand := fun _ => none }

/-- The diagram agent changes only has_diagrams and diagram. -/
theorem apply_diagram_fields (env : Orchestrator) (s : SlideContent) :
    (apply_diagram env s).section_index = s.section_index ∧
    (apply_diagram env s).slide_index_in_section = s.slide_index_in_section ∧
    (apply_diagram env s).global_slide_index = s.global_slide_index ∧
    (apply_diagram env s).has_images = s.has_images ∧
    (apply_diagram env s).image = s.image := by
  unfold apply_diagram
  cases env.diagram_agent s <;> simp

/-- The image agent changes only has_images and image. -/
theorem apply_image_fields (env : Orchestrator) (s : SlideContent) :
    (apply_image env s).section_index = s.section_index ∧
    (apply_image env s).slide_index_in_section = s.slide_index_in_section ∧
    (apply_image env s).global_slide_index = s.global_slide_index ∧
    (apply_image env s).has_diagrams = s.has_diagrams ∧
    (apply_image env s).diagram = s.diagram := by
  unfold apply_image
  cases env.image_agent s <;> simp

/-- Enrichment never touches the three index fields of a slide. -/
theorem enrich_slide_indices (env : Orchestrator) (s : SlideContent) :
    (enrich_slide env s).section_index = s.section_index ∧
    (enrich_slide env s).slide_index_in_section = s.slide_index_in_section ∧
    (enrich_slide env s).global_slide_index = s.global_slide_index := by
  unfold enrich_slide
  have h1 := apply_diagram_fields env s
  have h2 := apply_image_fields env (apply_diagram env s)
  exact ⟨h2.1.trans h1.1, h2.2.1.trans h1.2.1, h2.2.2.1.trans h1.2.2.1⟩

/-- A failing diagram agent leaves the slide unchanged. -/
theorem apply_diagram_failed (env : Orchestrator) (s : SlideContent)
    (h : env.diagram_agent s = EnrichOutcome.failed) : apply_diagram env s = s := by
  unfold apply_diagram
  rw [h]

/-- A failing image agent leaves the slide unchanged. -/
theorem apply_image_failed (env : Orchestrator) (s : SlideContent)
    (h : env.image_agent s = EnrichOutcome.failed) : apply_image env s = s := by
  unfold apply_image
  rw [h]

/-- Shape of a successful stub expansion: content from the expander,
address from the stub, flags false, artifacts absent. -/
theorem expand_stub_some {env : Orchestrator} {a : Nat × Nat} {st : SlideStub}
    {s : SlideContent} (h : expand_stub env a st = some s) :
    s.section_index = a.1 ∧ s.slide_index_in_section = a.2 ∧
    s.has_images = false ∧ s.has_diagrams = false ∧
    s.diagram = none ∧ s.image = none := by
  unfold expand_stub at h
  cases hc : env.expand st with
  | none => rw [hc] at h; simp at h
  | some c =>
    rw [hc] at h
    simp only [Option.map_some', Option.some.injEq] at h
    subst h
    exact ⟨rfl, rfl, rfl, rfl, rfl, rfl⟩

/-- Pairwise transfer through filterMap. -/
theorem pairwise_filterMap {α β : Type} {r : α → α → Prop} {r2 : β → β → Prop}
    (f : α → Option β)
    (H : ∀ a b, r a b → ∀ c, f a = some c → ∀ d, f b = some d → r2 c d) :
    ∀ l : List α, l.Pairwise r → (l.filterMap f).Pairwise r2 := by
  intro l hl
  induction hl with
  | nil => simp
  | @cons a l ha hl ih =>
    rw [List.filterMap_cons]
    cases hfa : f a with
    | none => exact ih
    | some c =>
      refine List.Pairwise.cons ?_ ih
      intro d hd
      rcases List.mem_filterMap.mp hd with ⟨b, hb, hfb⟩
      exact H a b (ha b hb) c hfa d hfb

/-- Every addressed stub of one section carries that section index and
a slide index at least the start offset. -/
theorem mem_sectionStubsFrom {i j : Nat} {stubs : List SlideStub}
    {x : (Nat × Nat) × SlideStub} (h : x ∈ sectionStubsFrom i j stubs) :
    x.1.1 = i ∧ j ≤ x.1.2 := by
  induction stubs generalizing j with
  | nil => simp [sectionStubsFrom] at h
  | cons st rest ih =>
    simp only [sectionStubsFrom, List.mem_cons] at h
    rcases h with h | h
    · subst h; exact ⟨rfl, Nat.le_refl j⟩
    · rcases ih h with ⟨h1, h2⟩
      exact ⟨h1, Nat.le_of_succ_le h2⟩

/-- The addressed stubs of one section are strictly ordered. -/
theorem pairwise_sectionStubsFrom (i : Nat) :
    ∀ (j : Nat) (stubs : List SlideStub),
      (sectionStubsFrom i j stubs).Pairwise addrLt := by
  intro j stubs
  induction stubs generalizing j with
  | nil => simp [sectionStubsFrom]
  | cons st rest ih =>
    refine List.Pairwise.cons ?_ (ih (j + 1))
    intro y hy
    rcases mem_sectionStubsFrom hy with ⟨h1, h2⟩
    exact Or.inr ⟨h1.symm, Nat.lt_of_succ_le h2⟩

/-- Every addressed stub of a section list carries a section index at
least the start offset. -/
theorem mem_stubsFrom {i : Nat} {secs : List Section}
    {x : (Nat × Nat) × SlideStub} (h : x ∈ stubsFrom i secs) : i ≤ x.1.1 := by
  induction secs generalizing i with
  | nil => simp [stubsFrom] at h
  | cons sec rest ih =>
    simp only [stubsFrom, List.mem_append] at h
    rcases h with h | h
    · exact Nat.le_of_eq (mem_sectionStubsFrom h).1.symm
    · exact Nat.le_of_succ_le (ih h)

/-- The addressed stubs of an outline are strictly ordered by address. -/
theorem pairwise_stubsFrom : ∀ (i : Nat) (secs : List Section),
    (stubsFrom i secs).Pairwise addrLt := by
  intro i secs
  induction secs generalizing i with
  | nil => simp [stubsFrom]
  | cons sec rest ih =>
    rw [stubsFrom, List.pairwise_append]
    refine ⟨pairwise_sectionStubsFrom i 0 sec.slide_stubs, ih (i + 1), ?_⟩
    intro x hx y hy
    exact Or.inl ((mem_sectionStubsFrom hx).1 ▸ Nat.lt_of_succ_le (mem_stubsFrom hy))

/-- The expanded slides carry pairwise strictly ordered addresses. -/
theorem pairwise_keyLt_expand_all (env : Orchestrator) (o : Outline) :
    (expand_all env o).Pairwise keyLt := by
  refine pairwise_filterMap _ ?_ _ (pairwise_stubsFrom 0 o.sections)
  intro a b hab c hc d hd
  rcases expand_stub_some hc with ⟨hc1, hc2, -⟩
  rcases expand_stub_some hd with ⟨hd1, hd2, -⟩
  unfold keyLt
  unfold addrLt at hab
  rw [hc1, hc2, hd1, hd2]
  exact hab

/-- Two slides of a strictly address-ordered list that carry the same
address are the same slide. -/
theorem key_unique_of_pairwise {l : List SlideContent} (hp : l.Pairwise keyLt)
    (a : Nat × Nat) :
    ∀ x ∈ l, ∀ y ∈ l, keyIs a x = true → keyIs a y = true → x = y := by
  intro x hx y hy hkx hky
  by_contra hne
  have hsym : Symmetric fun s t : SlideContent =>
      keyLt s t ∨ keyLt t s := fun s t h => h.symm
  have hp2 : l.Pairwise fun s t : SlideContent => keyLt s t ∨ keyLt t s :=
    hp.imp Or.inl
  have hlt := hp2.forall hsym hx hy hne
  unfold keyIs at hkx hky
  simp only [Bool.and_eq_true, beq_iff_eq] at hkx hky
  unfold keyLt at hlt
  rcases hlt with h | h <;>
    rcases h with h | ⟨h1, h2⟩ <;>
    omega

/-- find? is stable under permutation when at most one element can
satisfy the predicate. -/
theorem find?_eq_of_perm {α : Type} (p : α → Bool) {l₁ l₂ : List α}
    (h : List.Perm l₁ l₂)
    (hu : ∀ x ∈ l₁, ∀ y ∈ l₁, p x = true → p y = true → x = y) :
    l₁.find? p = l₂.find? p := by
  induction h with
  | nil => rfl
  | @cons a t₁ t₂ hperm ih =>
    cases hpa : p a with
    | true => rw [List.find?_cons_of_pos _ hpa, List.find?_cons_of_pos _ hpa]
    | false =>
      rw [List.find?_cons_of_neg _ (by simp [hpa]),
        List.find?_cons_of_neg _ (by simp [hpa])]
      exact ih fun x hx y hy => hu x (List.mem_cons_of_mem a hx) y (List.mem_cons_of_mem a hy)
  | @swap a b t =>
    cases hpa : p a with
    | true =>
      cases hpb : p b with
      | true =>
        have hab : b = a :=
          hu b (by simp) a (by simp) hpb hpa
        subst hab
        rfl
      | false =>
        rw [List.find?_cons_of_neg _ (by simp [hpb]), List.find?_cons_of_pos _ hpa,
          List.find?_cons_of_pos _ hpa]
    | false =>
      cases hpb : p b with
      | true =>
        rw [List.find?_cons_of_pos _ hpb, List.find?_cons_of_neg _ (by simp [hpa]),
          List.find?_cons_of_pos _ hpb]
      | false =>
        rw [List.find?_cons_of_neg _ (by simp [hpb]), List.find?_cons_of_neg _ (by simp [hpa]),
          List.find?_cons_of_neg _ (by simp [hpa]), List.find?_cons_of_neg _ (by simp [hpb])]
  | @trans t₁ t₂ t₃ h12 h23 ih12 ih23 =>
    refine (ih12 hu).trans (ih23 ?_)
    intro x hx y hy
    exact hu x (h12.mem_iff.mpr hx) y (h12.mem_iff.mpr hy)

/-- Re-ordering by stub addresses erases the completion order: any
permutation of an address-unique result list re-orders to the same
final list. -/
theorem reorder_eq_of_perm (o : Outline) {l₁ l₂ : List SlideContent}
    (h : List.Perm l₁ l₂) (hp : l₂.Pairwise keyLt) :
    reorder o l₁ = reorder o l₂ := by
  unfold reorder
  refine List.filterMap_congr ?_
  intro p _
  refine find?_eq_of_perm (keyIs p.1) h ?_
  intro x hx y hy hkx hky
  exact key_unique_of_pairwise hp p.1 x (h.mem_iff.mp hx) y (h.mem_iff.mp hy) hkx hky

/-- The re-ordered slide list is weakly sorted by section index. -/
theorem pairwise_secLe_reorder (o : Outline) (l : List SlideContent) :
    (reorder o l).Pairwise secLe := by
  unfold reorder
  refine pairwise_filterMap _ ?_ _ (pairwise_stubsFrom 0 o.sections)
  intro a b hab c hc d hd
  have hkc := List.find?_some hc
  have hkd := List.find?_some hd
  unfold keyIs at hkc hkd
  simp only [Bool.and_eq_true, beq_iff_eq] at hkc hkd
  unfold secLe
  rw [hkc.1, hkd.1]
  unfold addrLt at hab
  rcases hab with h | ⟨h1, -⟩
  · exact Nat.le_of_lt h
  · exact Nat.le_of_eq h1

/-- Every member of the re-ordered list is a member of the collected
list. -/
theorem mem_of_mem_reorder {o : Outline} {l : List SlideContent}
    {s : SlideContent} (h : s ∈ reorder o l) : s ∈ l := by
  unfold reorder at h
  rcases List.mem_filterMap.mp h with ⟨p, -, hfind⟩
  exact List.mem_of_find?_eq_some hfind

/-- Index recomputation preserves the length of the deck. -/
theorem length_recompute (l : List SlideContent) :
    (recompute_indices l).length = l.length := by
  simp [recompute_indices, List.enum_length]

/-- Positional shape of the recomputed deck: the slide at position g is
the old slide with global index g and within-section index the number
of earlier survivors of its section. -/
theorem recompute_getElem? (l : List SlideContent) (g : Nat) :
    (recompute_indices l)[g]? = (l[g]?).map fun s =>
      { s with
        global_slide_index := g
        slide_index_in_section :=
          ((l.take g).filter fun t => t.section_index == s.section_index).length } := by
  unfold recompute_indices
  rw [List.getElem?_map, List.getElem?_enum]
  cases l[g]? <;> simp

/-- Index recomputation does not change the section index sequence. -/
theorem map_sec_recompute (l : List SlideContent) :
    (recompute_indices l).map (fun s => s.section_index) =
      l.map fun s => s.section_index := by
  unfold recompute_indices
  rw [List.map_map]
  show l.enum.map ((fun s => s.section_index) ∘ Prod.snd) = _
  rw [← List.map_map, List.enum_map_snd]

/-- Lists with the same section index sequence count earlier-section
slides identically. -/
theorem countLt_eq_of_map_sec {l₁ l₂ : List SlideContent}
    (h : l₁.map (fun s => s.section_index) = l₂.map fun s => s.section_index)
    (x : Nat) :
    (l₁.filter fun t => t.section_index < x).length =
      (l₂.filter fun t => t.section_index < x).length := by
  have hcp : ∀ m : List SlideContent,
      (m.filter fun t => t.section_index < x).length =
        ((m.map fun s => s.section_index).filter fun n => n < x).length := by
    intro m
    rw [← List.countP_eq_length_filter, ← List.countP_eq_length_filter, List.countP_map]
    rfl
  rw [hcp, hcp, h]

/-- In a section-sorted deck, position equals the number of slides of
strictly earlier sections plus the number of earlier slides of the same
section. -/
theorem sorted_position_count {l : List SlideContent} (hs : l.Pairwise secLe)
    {g : Nat} (hg : g < l.length) :
    (l.filter fun t => t.section_index < l[g].section_index).length +
      ((l.take g).filter fun t => t.section_index == l[g].section_index).length = g := by
  have hpg := List.pairwise_iff_getElem.mp hs
  have hlen_take : (l.take g).length = g := by
    rw [List.length_take]
    omega
  have hdrop : (l.drop g).countP (fun t => decide (t.section_index < l[g].section_index)) = 0 := by
    rw [List.countP_eq_zero]
    intro t ht
    rcases List.mem_iff_getElem.mp ht with ⟨i, hi, rfl⟩
    rw [List.getElem_drop]
    simp only [decide_eq_true_eq]
    rcases Nat.eq_zero_or_pos i with hi0 | hi0
    · subst hi0
      simp
    · have hlt : g < g + i := Nat.lt_add_of_pos_right hi0
      have hb : g + i < l.length := by
        rw [List.length_drop] at hi
        omega
      have := hpg g (g + i) hg hb hlt
      unfold secLe at this
      omega
  have htake : ∀ i (hi : i < (l.take g).length),
      (l.take g)[i].section_index ≤ l[g].section_index := by
    intro i hi
    rw [List.getElem_take]
    have hig : i < g := by omega
    have := hpg i g (by omega) hg hig
    unfold secLe at this
    exact this
  have hsplit0 : ∀ x : Nat, l.countP (fun t => decide (t.section_index < x)) =
      (l.take g).countP (fun t => decide (t.section_index < x)) +
        (l.drop g).countP (fun t => decide (t.section_index < x)) := by
    intro x
    conv_lhs => rw [← List.take_append_drop g l]
    rw [List.countP_append]
  have hsplit : l.countP (fun t => decide (t.section_index < l[g].section_index)) =
      (l.take g).countP (fun t => decide (t.section_index < l[g].section_index)) := by
    rw [hsplit0, hdrop]
    omega
  have hcompl := List.length_eq_countP_add_countP
    (fun t : SlideContent => decide (t.section_index < l[g].section_index)) (l := l.take g)
  have hcongr : (l.take g).countP
      (fun t => decide ¬(decide (t.section_index < l[g].section_index)) = true) =
      (l.take g).countP fun t => t.section_index == l[g].section_index := by
    refine List.countP_congr ?_
    intro x hx
    rcases List.mem_iff_getElem.mp hx with ⟨i, hi, rfl⟩
    have := htake i hi
    simp only [decide_eq_true_eq, beq_iff_eq, decide_not]
    constructor
    · intro h
      simp only [Bool.not_eq_true', decide_eq_false_iff_not] at h
      omega
    · intro h
      simp only [Bool.not_eq_true', decide_eq_false_iff_not]
      omega
  rw [← List.countP_eq_length_filter, ← List.countP_eq_length_filter, hsplit]
  rw [hcompl, hcongr] at hlen_take
  omega

/-- The recomputed indices of a section-sorted deck satisfy the spec 3
invariant. -/
theorem slideInvariant_recompute {l : List SlideContent} (hs : l.Pairwise secLe) :
    slideInvariant (recompute_indices l) = true := by
  unfold slideInvariant
  rw [List.all_eq_true]
  intro s hsmem
  rcases List.mem_iff_getElem?.mp hsmem with ⟨g, hget⟩
  rw [recompute_getElem? l g] at hget
  cases hlg : l[g]? with
  | none => rw [hlg] at hget; simp at hget
  | some t =>
    rw [hlg] at hget
    simp only [Option.map_some', Option.some.injEq] at hget
    rcases List.getElem?_eq_some.mp hlg with ⟨hg, hteq⟩
    subst hget
    simp only [beq_iff_eq]
    have hcount := countLt_eq_of_map_sec (map_sec_recompute l) t.section_index
    rw [hcount]
    have := sorted_position_count hs hg
    rw [hteq] at this
    omega

/-- Pointwise congruence for all, through the membership
characterization. -/
theorem allCongr {α : Type} {p q : α → Bool} {l : List α}
    (h : ∀ a, a ∈ l → p a = q a) : l.all p = l.all q := by
  refine Bool.coe_iff_coe.mp ?_
  rw [List.all_eq_true, List.all_eq_true]
  constructor
  · intro hp a ha
    rw [← h a ha]
    exact hp a ha
  · intro hq a ha
    rw [h a ha]
    exact hq a ha

/-- Best-effort enrichment of a whole deck neither reorders it nor
moves any slide between sections, so the spec 3 invariant transfers. -/
theorem slideInvariant_map_enrich (env : Orchestrator) (l : List SlideContent) :
    slideInvariant (l.map (enrich_slide env)) = slideInvariant l := by
  unfold slideInvariant
  rw [List.all_map]
  refine allCongr ?_
  intro s _
  have hidx := enrich_slide_indices env s
  have hmapsec : (l.map (enrich_slide env)).map (fun t => t.section_index) =
      l.map fun t => t.section_index := by
    rw [List.map_map]
    exact List.map_congr_left fun a _ => (enrich_slide_indices env a).1
  simp only [Function.comp]
  rw [hidx.1, hidx.2.1, hidx.2.2, countLt_eq_of_map_sec hmapsec s.section_index]

/-- Every slide produced by stub expansion still carries cleared
enrichment flags and artifacts. -/
theorem flags_false_of_mem_expand {env : Orchestrator} {o : Outline}
    {s : SlideContent} (h : s ∈ expand_all env o) :
    s.has_images = false ∧ s.has_diagrams = false ∧
      s.diagram = none ∧ s.image = none := by
  unfold expand_all at h
  rcases List.mem_filterMap.mp h with ⟨p, -, hp⟩
  rcases expand_stub_some hp with ⟨-, -, h1, h2, h3, h4⟩
  exact ⟨h1, h2, h3, h4⟩

/-- With a total renderer the Assembler always succeeds. -/
theorem assemble_total {env : Orchestrator}
    (hr : ∀ s, (env.render s).isSome = true) :
    ∀ l : List SlideContent, ∃ doc, assemble_document env l = Except.ok doc := by
  intro l
  induction l with
  | nil => exact ⟨[], rfl⟩
  | cons s rest ih =>
    rcases Option.isSome_iff_exists.mp (hr s) with ⟨b, hb⟩
    rcases ih with ⟨doc, hdoc⟩
    refine ⟨b :: doc, ?_⟩
    unfold assemble_document
    rw [hb, hdoc]

/-- The slide at position g of a recomputed deck carries global index
g. -/
theorem recompute_global_at {l : List SlideContent} {g : Nat} {t : SlideContent}
    (h : (recompute_indices l)[g]? = some t) : t.global_slide_index = g := by
  rw [recompute_getElem?] at h
  cases hu : l[g]? with
  | none => rw [hu] at h; simp at h
  | some u =>
    rw [hu] at h
    simp only [Option.map_some', Option.some.injEq] at h
    rw [← h]

/-- C1: for every valid brief, generate_presentation returns either a
success envelope whose metadata.total_slides equals the number of
slides in the payload and whose slides sit at positions equal to their
global_slide_index (strictly ascending, contiguous 0..n-1), or an
error envelope with empty data; no third outcome shape exists. -/
theorem generate_envelope_C1 (env : Orchestrator)
    (sched : List SlideContent → List SlideContent) (parallel : Bool)
    (brief : Brief) (hvalid : brief.topic ≠ "" ∧ 0 < brief.duration_minutes) :
    ((generate_presentation env sched parallel brief).envelope.status = "success" ∧
      ∃ d, (generate_presentation env sched parallel brief).envelope.data = some d ∧
        d.metadata.total_slides = d.slides.length ∧
        ∀ (g : Nat) (s : SlideContent),
          d.slides[g]? = some s → s.global_slide_index = g) ∨
    ((generate_presentation env sched parallel brief).envelope.status = "error" ∧
      (generate_presentation env sched parallel brief).envelope.data = none) := by
  cases hsyn : env.synthesize brief with
  | none =>
    unfold generate_presentation
    rw [hsyn]
    right
    exact ⟨rfl, rfl⟩
  | some outline =>
    unfold generate_presentation
    rw [hsyn]
    dsimp only
    by_cases hc : sched (expand_all env outline) = []
    · rw [if_pos hc]
      right
      exact ⟨rfl, rfl⟩
    · rw [if_neg hc]
      cases hasm : assemble_document env
          (final_slides env outline (sched (expand_all env outline))) with
      | error d =>
        right
        exact ⟨rfl, rfl⟩
      | ok doc =>
        dsimp only
        left
        refine ⟨rfl, _, rfl, rfl, ?_⟩
        intro g s hgs
        unfold final_slides at hgs
        rw [List.getElem?_map] at hgs
        cases hrc : (recompute_indices
            (reorder outline (sched (expand_all env outline))))[g]? with
        | none => rw [hrc] at hgs; simp at hgs
        | some t =>
          rw [hrc] at hgs
          simp only [Option.map_some', Option.some.injEq] at hgs
          subst hgs
          rw [(enrich_slide_indices env t).2.2]
          exact recompute_global_at hrc

/-- C4: both operations return a single envelope whose status is
success or error, and every error envelope carries empty data and a
message from the fixed failure vocabulary. -/
theorem envelope_contract_C4 (env : Orchestrator)
    (sched : List SlideContent → List SlideContent) (parallel : Bool)
    (brief : Brief) (deck : Deck) (sec sli : Nat) (edit_prompt : String)
    (merge_output_path : Option String) :
    (((generate_presentation env sched parallel brief).envelope.status = "success" ∨
        (generate_presentation env sched parallel brief).envelope.status = "error") ∧
      ((generate_presentation env sched parallel brief).envelope.status = "error" →
        (generate_presentation env sched parallel brief).envelope.data = none ∧
          genVocab (generate_presentation env sched parallel brief).envelope.message)) ∧
    (((edit_slide env deck sec sli edit_prompt merge_output_path).envelope.status = "success" ∨
        (edit_slide env deck sec sli edit_prompt merge_output_path).envelope.status = "error") ∧
      ((edit_slide env deck sec sli edit_prompt merge_output_path).envelope.status = "error" →
        (edit_slide env deck sec sli edit_prompt merge_output_path).envelope.data = none ∧
          editVocab (edit_slide env deck sec sli edit_prompt merge_output_path).envelope.message)) := by
  constructor
  · cases hsyn : env.synthesize brief with
    | none =>
      unfold generate_presentation
      rw [hsyn]
      exact ⟨Or.inr rfl, fun _ => ⟨rfl, Or.inl rfl⟩⟩
    | some outline =>
      unfold generate_presentation
      rw [hsyn]
      dsimp only
      by_cases hc : sched (expand_all env outline) = []
      · rw [if_pos hc]
        exact ⟨Or.inr rfl, fun _ => ⟨rfl, Or.inr (Or.inl rfl)⟩⟩
      · rw [if_neg hc]
        cases hasm : assemble_document env
            (final_slides env outline (sched (expand_all env outline))) with
        | error d =>
          exact ⟨Or.inr rfl, fun _ => ⟨rfl, Or.inr (Or.inr (Or.inl ⟨d, rfl⟩))⟩⟩
        | ok doc =>
          dsimp only
          refine ⟨Or.inl rfl, fun h => absurd h ?_⟩
          simp
  · by_cases hc : sec < deck.session.outline.sections.length ∧
        sli < count_in_section deck.session.slides sec
    · cases hfind : find_slide deck.session.slides sec sli with
      | none =>
        unfold edit_slide
        rw [if_pos hc, hfind]
        dsimp only
        exact ⟨Or.inr rfl, fun _ => ⟨rfl, Or.inr (Or.inl rfl)⟩⟩
      | some old =>
        cases hedit : env.expand_edit old edit_prompt with
        | none =>
          unfold edit_slide
          rw [if_pos hc, hfind]
          dsimp only
          rw [hedit]
          dsimp only
          exact ⟨Or.inr rfl, fun _ => ⟨rfl, Or.inr (Or.inr (Or.inl rfl))⟩⟩
        | some core =>
          cases hrender : env.render (enrich_slide env (regenerate old core)) with
          | none =>
            unfold edit_slide
            rw [if_pos hc, hfind]
            dsimp only
            rw [hedit]
            dsimp only
            rw [hrender]
            dsimp only
            exact ⟨Or.inr rfl, fun _ => ⟨rfl, Or.inr (Or.inr (Or.inr (Or.inl rfl)))⟩⟩
          | some bytes =>
            unfold edit_slide
            rw [if_pos hc, hfind]
            dsimp only
            rw [hedit]
            dsimp only
            rw [hrender]
            dsimp only
            refine ⟨Or.inl rfl, fun h => absurd h ?_⟩
            simp
    · unfold edit_slide
      rw [if_neg hc]
      exact ⟨Or.inr rfl, fun _ => ⟨rfl, Or.inl rfl⟩⟩

/-- C6: when every per-slide content expansion fails, the run returns
the all-slides failure envelope, its state trace never reaches
ASSEMBLING (so the Assembler is never invoked), and no Session is
persisted. -/
theorem all_fail_never_assembles_C6 (env : Orchestrator)
    (sched : List SlideContent → List SlideContent) (parallel : Bool)
    (brief : Brief) (outline : Outline)
    (hperm : ∀ l, List.Perm (sched l) l)
    (hout : env.synthesize brief = some outline)
    (hfail : ∀ p ∈ stubsWithAddr outline, env.expand p.2 = none) :
    (generate_presentation env sched parallel brief).envelope =
        errEnv "Failed to generate any valid slides" ∧
    GenState.ASSEMBLING ∉ (generate_presentation env sched parallel brief).trace ∧
    (generate_presentation env sched parallel brief).deck = none := by
  have hexp : expand_all env outline = [] := by
    unfold expand_all
    rw [List.filterMap_eq_nil_iff]
    intro p hp
    unfold expand_stub
    rw [hfail p hp]
    rfl
  have hcoll : sched (expand_all env outline) = [] := by
    rw [hexp]
    exact (hperm []).eq_nil
  unfold generate_presentation
  rw [hout]
  dsimp only
  rw [if_pos hcoll]
  exact ⟨rfl, by decide, rfl⟩

/-- Address test unfolded to plain equalities. -/
theorem keyIs_eq_true {a : Nat × Nat} {s : SlideContent} :
    keyIs a s = true ↔ s.section_index = a.1 ∧ s.slide_index_in_section = a.2 := by
  unfold keyIs
  simp [Bool.and_eq_true, beq_iff_eq]

/-- The regenerated slide of the edit path keeps the address and global
index of the slide it replaces. -/
theorem regenerate_indices (old : SlideContent) (core : SlideCore) :
    (regenerate old core).section_index = old.section_index ∧
    (regenerate old core).slide_index_in_section = old.slide_index_in_section ∧
    (regenerate old core).global_slide_index = old.global_slide_index :=
  ⟨rfl, rfl, rfl⟩

/-- Replacing the slide at one address of an invariant-satisfying deck
by an index-preserving replacement keeps the spec 3 invariant. -/
theorem slideInvariant_replace {slides : List SlideContent} {sec sli : Nat}
    {old new_slide : SlideContent}
    (hinv : slideInvariant slides = true)
    (hfind : find_slide slides sec sli = some old)
    (hsec : new_slide.section_index = old.section_index)
    (hsli : new_slide.slide_index_in_section = old.slide_index_in_section)
    (hglob : new_slide.global_slide_index = old.global_slide_index) :
    slideInvariant
      (slides.map fun s => if keyIs (sec, sli) s then new_slide else s) = true := by
  have hold_mem : old ∈ slides := List.mem_of_find?_eq_some hfind
  have hold_key : keyIs (sec, sli) old = true := List.find?_some hfind
  rcases keyIs_eq_true.mp hold_key with ⟨holdsec, holdsli⟩
  have hmapsec : (slides.map fun s => if keyIs (sec, sli) s then new_slide else s).map
      (fun t => t.section_index) = slides.map fun t => t.section_index := by
    rw [List.map_map]
    refine List.map_congr_left ?_
    intro a _
    simp only [Function.comp]
    by_cases hk : keyIs (sec, sli) a = true
    · rw [if_pos hk, hsec, holdsec, (keyIs_eq_true.mp hk).1]
    · rw [if_neg hk]
  have hinv2 := List.all_eq_true.mp hinv
  unfold slideInvariant
  rw [List.all_map, List.all_eq_true]
  intro a ha
  simp only [Function.comp]
  by_cases hk : keyIs (sec, sli) a = true
  · simp only [if_pos hk]
    rw [countLt_eq_of_map_sec hmapsec new_slide.section_index]
    have hainv := hinv2 a ha
    have holdinv := hinv2 old hold_mem
    simp only [beq_iff_eq] at hainv holdinv ⊢
    rcases keyIs_eq_true.mp hk with ⟨hasec, hasli⟩
    rw [hsec, hsli, hglob, holdsec, holdsli]
    rw [holdsec, holdsli] at holdinv
    exact holdinv
  · simp only [if_neg hk]
    rw [countLt_eq_of_map_sec hmapsec a.section_index]
    exact hinv2 a ha

/-- C5: the spec 3 invariant (global_slide_index equals the slide count
of all preceding sections plus slide_index_in_section, contiguous over
the surviving slides) holds for every generated deck payload, and is
preserved by every successful edit. -/
theorem index_invariant_C5 :
    (∀ (env : Orchestrator) (sched : List SlideContent → List SlideContent)
        (parallel : Bool) (brief : Brief) (d : GenData),
      (generate_presentation env sched parallel brief).envelope.data = some d →
        slideInvariant d.slides = true) ∧
    (∀ (env : Orchestrator) (deck : Deck) (sec sli : Nat) (edit_prompt : String)
        (merge_output_path : Option String),
      slideInvariant deck.session.slides = true →
      (edit_slide env deck sec sli edit_prompt merge_output_path).envelope.status = "success" →
        slideInvariant
          (edit_slide env deck sec sli edit_prompt merge_output_path).deck.session.slides =
          true) := by
  constructor
  · intro env sched parallel brief d hd
    cases hsyn : env.synthesize brief with
    | none =>
      unfold generate_presentation at hd
      rw [hsyn] at hd
      exact absurd hd (by simp [errEnv])
    | some outline =>
      unfold generate_presentation at hd
      rw [hsyn] at hd
      dsimp only at hd
      by_cases hc : sched (expand_all env outline) = []
      · rw [if_pos hc] at hd
        exact absurd hd (by simp [errEnv])
      · rw [if_neg hc] at hd
        cases hasm : assemble_document env
            (final_slides env outline (sched (expand_all env outline))) with
        | error e =>
          rw [hasm] at hd
          exact absurd hd (by simp [errEnv])
        | ok doc =>
          rw [hasm] at hd
          dsimp only at hd
          have hd2 : d.slides = final_slides env outline (sched (expand_all env outline)) := by
            cases hd3 : d with
            | mk o sl md =>
              rw [hd3] at hd
              simp only [Option.some.injEq, GenData.mk.injEq] at hd
              exact hd.2.1.symm
          rw [hd2]
          unfold final_slides
          rw [slideInvariant_map_enrich]
          exact slideInvariant_recompute (pairwise_secLe_reorder outline _)
  · intro env deck sec sli edit_prompt merge_output_path hinv hok
    by_cases hc : sec < deck.session.outline.sections.length ∧
        sli < count_in_section deck.session.slides sec
    · cases hfind : find_slide deck.session.slides sec sli with
      | none =>
        unfold edit_slide at hok
        rw [if_pos hc, hfind] at hok
        exact absurd hok (by simp [errEnv])
      | some old =>
        cases hedit : env.expand_edit old edit_prompt with
        | none =>
          unfold edit_slide at hok
          rw [if_pos hc, hfind] at hok
          dsimp only at hok
          rw [hedit] at hok
          exact absurd hok (by simp [errEnv])
        | some core =>
          cases hrender : env.render (enrich_slide env (regenerate old core)) with
          | none =>
            unfold edit_slide at hok
            rw [if_pos hc, hfind] at hok
            dsimp only at hok
            rw [hedit] at hok
            dsimp only at hok
            rw [hrender] at hok
            exact absurd hok (by simp [errEnv])
          | some bytes =>
            unfold edit_slide
            rw [if_pos hc, hfind]
            dsimp only
            rw [hedit]
            dsimp only
            rw [hrender]
            dsimp only
            have hidx := enrich_slide_indices env (regenerate old core)
            exact slideInvariant_replace hinv hfind hidx.1 hidx.2.1 hidx.2.2
    · unfold edit_slide at hok
      rw [if_neg hc] at hok
      exact absurd hok (by simp [errEnv])

/-- C7: enrichment is strictly best-effort.  Whenever the rest of the
run can succeed (outline produced, at least one slide expanded, total
renderer), the run reaches DONE whatever the enrichment agents do, and
the slide whose diagram (or image) agent failed is handed on with the
corresponding flag still false and no artifact of that type. -/
theorem enrichment_best_effort_C7 (env : Orchestrator)
    (sched : List SlideContent → List SlideContent) (parallel : Bool)
    (brief : Brief) (outline : Outline) (g : Nat) (s : SlideContent)
    (hperm : ∀ l, List.Perm (sched l) l)
    (hout : env.synthesize brief = some outline)
    (hne : ¬ sched (expand_all env outline) = [])
    (hrender : ∀ t, (env.render t).isSome = true)
    (hg : (recompute_indices
        (reorder outline (sched (expand_all env outline))))[g]? = some s) :
    (generate_presentation env sched parallel brief).envelope.status = "success" ∧
    (generate_presentation env sched parallel brief).trace.getLast? =
        some GenState.DONE ∧
    ∃ d, (generate_presentation env sched parallel brief).envelope.data = some d ∧
      ∃ s2, d.slides[g]? = some s2 ∧
        (env.diagram_agent s = EnrichOutcome.failed →
          s2.has_diagrams = false ∧ s2.diagram = none) ∧
        (env.image_agent (apply_diagram env s) = EnrichOutcome.failed →
          s2.has_images = false ∧ s2.image = none) := by
  have hflags : s.has_images = false ∧ s.has_diagrams = false ∧
      s.diagram = none ∧ s.image = none := by
    have hg2 := hg
    rw [recompute_getElem?] at hg2
    cases ht : (reorder outline (sched (expand_all env outline)))[g]? with
    | none => rw [ht] at hg2; simp at hg2
    | some t =>
      rw [ht] at hg2
      simp only [Option.map_some', Option.some.injEq] at hg2
      have htmem : t ∈ reorder outline (sched (expand_all env outline)) := by
        rcases List.getElem?_eq_some.mp ht with ⟨hb, hteq⟩
        exact hteq ▸ List.getElem_mem hb
      have htexp : t ∈ expand_all env outline :=
        (hperm (expand_all env outline)).mem_iff.mp (mem_of_mem_reorder htmem)
      have hf := flags_false_of_mem_expand htexp
      rw [← hg2]
      exact hf
  rcases assemble_total hrender
      (final_slides env outline (sched (expand_all env outline))) with ⟨doc, hdoc⟩
  unfold generate_presentation
  rw [hout]
  dsimp only
  rw [if_neg hne, hdoc]
  dsimp only
  refine ⟨rfl, rfl, _, rfl, enrich_slide env s, ?_, ?_, ?_⟩
  · unfold final_slides
    rw [List.getElem?_map, hg]
    rfl
  · intro hfd
    unfold enrich_slide
    rw [apply_diagram_failed env s hfd]
    have h2 := apply_image_fields env s
    exact ⟨h2.2.2.2.1.trans hflags.2.1, h2.2.2.2.2.trans hflags.2.2.1⟩
  · intro hfi
    unfold enrich_slide
    rw [apply_image_failed env (apply_diagram env s) hfi]
    have h1 := apply_diagram_fields env s
    exact ⟨h1.2.2.2.1.trans hflags.1, h1.2.2.2.2.trans hflags.2.2.2⟩

/-- C8: the final deck is derived solely from the stub addresses:
whatever completion order the parallel tasks finish in, the persisted
deck, status, message and slide payload agree with the sequential
run of the same collaborators. -/
theorem parallel_sequential_equiv_C8 (env : Orchestrator) (brief : Brief)
    (sched : List SlideContent → List SlideContent)
    (hperm : ∀ l, List.Perm (sched l) l) :
    (generate_presentation env sched true brief).deck =
        (generate_presentation env id false brief).deck ∧
    (generate_presentation env sched true brief).envelope.status =
        (generate_presentation env id false brief).envelope.status ∧
    (generate_presentation env sched true brief).envelope.message =
        (generate_presentation env id false brief).envelope.message ∧
    (generate_presentation env sched true brief).envelope.data.map GenData.slides =
        (generate_presentation env id false brief).envelope.data.map GenData.slides := by
  cases hsyn : env.synthesize brief with
  | none =>
    unfold generate_presentation
    rw [hsyn]
    exact ⟨rfl, rfl, rfl, rfl⟩
  | some outline =>
    have hkey := pairwise_keyLt_expand_all env outline
    have hfin : final_slides env outline (sched (expand_all env outline)) =
        final_slides env outline (expand_all env outline) := by
      unfold final_slides
      rw [reorder_eq_of_perm outline (hperm (expand_all env outline)) hkey]
    unfold generate_presentation
    rw [hsyn]
    dsimp only
    simp only [id_eq]
    by_cases hc : expand_all env outline = []
    · have hc1 : sched (expand_all env outline) = [] := by
        rw [hc]
        exact (hperm []).eq_nil
      rw [if_pos hc1, if_pos hc]
      exact ⟨rfl, rfl, rfl, rfl⟩
    · have hc1 : ¬ sched (expand_all env outline) = [] := by
        intro h
        apply hc
        have hp := hperm (expand_all env outline)
        rw [h] at hp
        exact (List.Perm.symm hp).eq_nil
      rw [if_neg hc1, if_neg hc, hfin]
      cases hasm : assemble_document env
          (final_slides env outline (expand_all env outline)) with
      | error d => exact ⟨rfl, rfl, rfl, rfl⟩
      | ok doc => exact ⟨rfl, rfl, rfl, rfl⟩

/-- C3: every failing edit call, in particular any call with an
out-of-range section or slide index, returns the documented error
message and leaves the persisted deck (session record and assembled
document) exactly as it was. -/
theorem edit_atomic_C3 (env : Orchestrator) (deck : Deck) (sec sli : Nat)
    (edit_prompt : String) (merge_output_path : Option String) :
    ((edit_slide env deck sec sli edit_prompt merge_output_path).envelope.status = "error" →
      (edit_slide env deck sec sli edit_prompt merge_output_path).deck = deck) ∧
    (¬ (sec < deck.session.outline.sections.length ∧
        sli < count_in_section deck.session.slides sec) →
      (edit_slide env deck sec sli edit_prompt merge_output_path).envelope.message =
          "Invalid section or slide index" ∧
      (edit_slide env deck sec sli edit_prompt merge_output_path).deck = deck) := by
  by_cases hc : sec < deck.session.outline.sections.length ∧
      sli < count_in_section deck.session.slides sec
  · cases hfind : find_slide deck.session.slides sec sli with
    | none =>
      unfold edit_slide
      rw [if_pos hc, hfind]
      exact ⟨fun _ => rfl, fun hnc => absurd hc hnc⟩
    | some old =>
      cases hedit : env.expand_edit old edit_prompt with
      | none =>
        unfold edit_slide
        rw [if_pos hc, hfind]
        dsimp only
        rw [hedit]
        exact ⟨fun _ => rfl, fun hnc => absurd hc hnc⟩
      | some core =>
        cases hrender : env.render (enrich_slide env (regenerate old core)) with
        | none =>
          unfold edit_slide
          rw [if_pos hc, hfind]
          dsimp only
          rw [hedit]
          dsimp only
          rw [hrender]
          exact ⟨fun _ => rfl, fun hnc => absurd hc hnc⟩
        | some bytes =>
          unfold edit_slide
          rw [if_pos hc, hfind]
          dsimp only
          rw [hedit]
          dsimp only
          rw [hrender]
          dsimp only
          exact ⟨fun h => absurd h (by simp), fun hnc => absurd hc hnc⟩
  · unfold edit_slide
    rw [if_neg hc]
    exact ⟨fun _ => rfl, fun _ => ⟨rfl, rfl⟩⟩

/-- C2: a successful edit replaces exactly one rendered slide: the
merged document equals the pre-edit document with the freshly rendered
slide written at the old slide's global position; its length is
unchanged, the new rendered bytes sit at that position, and every
other position is byte-identical to the pre-edit document. -/
theorem edit_frame_C2 (env : Orchestrator) (deck : Deck) (sec sli : Nat)
    (edit_prompt : String) (merge_output_path : Option String)
    (hwf : deckWF deck = true)
    (hok : (edit_slide env deck sec sli edit_prompt merge_output_path).envelope.status =
      "success") :
    ∃ old core bytes,
      find_slide deck.session.slides sec sli = some old ∧
      env.expand_edit old edit_prompt = some core ∧
      env.render (enrich_slide env (regenerate old core)) = some bytes ∧
      (edit_slide env deck sec sli edit_prompt merge_output_path).deck.document =
        deck.document.set old.global_slide_index bytes ∧
      (edit_slide env deck sec sli edit_prompt merge_output_path).deck.document.length =
        deck.document.length ∧
      (edit_slide env deck sec sli edit_prompt
          merge_output_path).deck.document[old.global_slide_index]? = some bytes ∧
      ∀ j : Nat, j ≠ old.global_slide_index →
        (edit_slide env deck sec sli edit_prompt merge_output_path).deck.document[j]? =
          deck.document[j]? := by
  by_cases hc : sec < deck.session.outline.sections.length ∧
      sli < count_in_section deck.session.slides sec
  · cases hfind : find_slide deck.session.slides sec sli with
    | none =>
      unfold edit_slide at hok
      rw [if_pos hc, hfind] at hok
      exact absurd hok (by simp [errEnv])
    | some old =>
      cases hedit : env.expand_edit old edit_prompt with
      | none =>
        unfold edit_slide at hok
        rw [if_pos hc, hfind] at hok
        dsimp only at hok
        rw [hedit] at hok
        exact absurd hok (by simp [errEnv])
      | some core =>
        cases hrender : env.render (enrich_slide env (regenerate old core)) with
        | none =>
          unfold edit_slide at hok
          rw [if_pos hc, hfind] at hok
          dsimp only at hok
          rw [hedit] at hok
          dsimp only at hok
          rw [hrender] at hok
          exact absurd hok (by simp [errEnv])
        | some bytes =>
          have hgbound : old.global_slide_index < deck.document.length := by
            unfold deckWF at hwf
            rw [Bool.and_eq_true] at hwf
            have hlen : deck.session.slides.length = deck.document.length := by
              have := hwf.1
              simpa [beq_iff_eq] using this
            have hall := List.all_eq_true.mp hwf.2
            have hfind2 : deck.session.slides.find? (keyIs (sec, sli)) = some old := hfind
            have hmem : old ∈ deck.session.slides :=
              List.mem_of_find?_eq_some hfind2
            rcases List.mem_iff_getElem.mp hmem with ⟨i, hi, heq⟩
            have hienum : i < deck.session.slides.enum.length := by
              rw [List.enum_length]
              exact hi
            have henum_mem : (i, old) ∈ deck.session.slides.enum := by
              have := List.getElem_mem hienum
              rw [List.getElem_enum, heq] at this
              exact this
            have hglob := hall (i, old) henum_mem
            simp only [beq_iff_eq] at hglob
            rw [hglob]
            rw [← hlen]
            exact hi
          refine ⟨old, core, bytes, rfl, hedit, hrender, ?_⟩
          unfold edit_slide
          rw [if_pos hc, hfind]
          dsimp only
          rw [hedit]
          dsimp only
          rw [hrender]
          dsimp only
          refine ⟨rfl, List.length_set deck.document old.global_slide_index bytes, ?_, ?_⟩
          · exact List.getElem?_set_self hgbound
          · intro j hj
            exact List.getElem?_set_ne (Ne.symm hj)
  · unfold edit_slide at hok
    rw [if_neg hc] at hok
    exact absurd hok (by simp [errEnv])

/-- Characterization of the hex-run matcher: it succeeds exactly on a
prefix of n case-insensitive hex characters. -/
theorem hexRun_eq_some : ∀ (n : Nat) (cs rest : List Char),
    hexRun n cs = some rest ↔
      ∃ pre, cs = pre ++ rest ∧ pre.length = n ∧ ∀ c ∈ pre, isHexCI c = true := by
  intro n
  induction n with
  | zero =>
    intro cs rest
    simp only [hexRun, Option.some.injEq]
    constructor
    · intro h
      exact ⟨[], by simp [h], rfl, by simp⟩
    · rintro ⟨pre, hcs, hlen, -⟩
      have hnil : pre = [] := List.eq_nil_of_length_eq_zero hlen
      subst hnil
      simpa using hcs
  | succ n ih =>
    intro cs rest
    cases cs with
    | nil =>
      simp only [hexRun]
      constructor
      · intro h
        simp at h
      · rintro ⟨pre, hcs, hlen, -⟩
        have := congrArg List.length hcs
        rw [List.length_append, hlen] at this
        simp only [List.length_nil] at this
        exact absurd this (by omega)
    | cons c cs2 =>
      simp only [hexRun]
      constructor
      · intro h
        by_cases hhc : isHexCI c = true
        · rw [if_pos hhc] at h
          rcases (ih cs2 rest).mp h with ⟨pre, hcs, hlen, hhex⟩
          refine ⟨c :: pre, by simp [hcs], by simp [hlen], ?_⟩
          intro x hx
          rcases List.mem_cons.mp hx with h1 | h1
          · subst h1
            exact hhc
          · exact hhex x h1
        · rw [if_neg hhc] at h
          simp at h
      · rintro ⟨pre, hcs, hlen, hhex⟩
        cases pre with
        | nil => simp at hlen
        | cons p ps =>
          simp only [List.cons_append, List.cons.injEq] at hcs
          rcases hcs with ⟨hc1, hcs2⟩
          subst hc1
          rw [if_pos (hhex c (by simp))]
          refine (ih cs2 rest).mpr ⟨ps, hcs2, by simpa using hlen, ?_⟩
          intro x hx
          exact hhex x (List.mem_cons_of_mem _ hx)

/-- Characterization of the dash matcher. -/
theorem dashRun_eq_some {cs rest : List Char} :
    dashRun cs = some rest ↔ cs = '-' :: rest := by
  cases cs with
  | nil => simp [dashRun]
  | cons c cs2 =>
    by_cases hc : c = '-'
    · subst hc
      simp [dashRun]
    · simp only [dashRun, if_neg hc]
      constructor
      · intro h
        simp at h
      · intro h
        simp only [List.cons.injEq] at h
        exact absurd h.1 hc

/-- C9: isValidSessionId accepts exactly the strings shaped as five
dash-separated case-insensitive hex groups of lengths 8-4-4-4-12, and
the slide page fetch guard only ever fetches slide info for ids that
isValidSessionId accepts. -/
theorem session_guard_C9 :
    (∀ s : String, isValidSessionId s = true ↔ UuidShaped s) ∧
    (∀ (isAuthLoading isAuthenticated : Bool) (id : String),
      shouldFetchSlideInfo isAuthLoading isAuthenticated id = true →
        isValidSessionId id = true) := by
  constructor
  · intro s
    unfold isValidSessionId uuidMatch UuidShaped
    rw [beq_iff_eq]
    constructor
    · intro h
      rcases Option.bind_eq_some.mp h with ⟨t8, h8, he12⟩
      rcases Option.bind_eq_some.mp h8 with ⟨t7, h7, hdash4⟩
      rcases Option.bind_eq_some.mp h7 with ⟨t6, h6, hx4c⟩
      rcases Option.bind_eq_some.mp h6 with ⟨t5, h5, hdash3⟩
      rcases Option.bind_eq_some.mp h5 with ⟨t4, h4, hx4b⟩
      rcases Option.bind_eq_some.mp h4 with ⟨t3, h3, hdash2⟩
      rcases Option.bind_eq_some.mp h3 with ⟨t2, h2, hx4a⟩
      rcases Option.bind_eq_some.mp h2 with ⟨t1, h1, hdash1⟩
      rcases (hexRun_eq_some 8 _ _).mp h1 with ⟨a, hsa, ha8, hahex⟩
      rcases (hexRun_eq_some 4 _ _).mp hx4a with ⟨b, hbt, hb4, hbhex⟩
      rcases (hexRun_eq_some 4 _ _).mp hx4b with ⟨c, hct, hc4, hchex⟩
      rcases (hexRun_eq_some 4 _ _).mp hx4c with ⟨d, hdt, hd4, hdhex⟩
      rcases (hexRun_eq_some 12 _ _).mp he12 with ⟨e, het, he12len, hehex⟩
      rw [dashRun_eq_some] at hdash1 hdash2 hdash3 hdash4
      refine ⟨a, b, c, d, e, ?_, ha8, hb4, hc4, hd4, he12len,
        hahex, hbhex, hchex, hdhex, hehex⟩
      rw [hsa, hdash1, hbt, hdash2, hct, hdash3, hdt, hdash4, het]
      simp
    · rintro ⟨a, b, c, d, e, hdata, ha, hb, hc, hd, he,
        hahex, hbhex, hchex, hdhex, hehex⟩
      have h1 : hexRun 8 s.data =
          some ('-' :: (b ++ '-' :: (c ++ '-' :: (d ++ '-' :: e)))) :=
        (hexRun_eq_some 8 _ _).mpr ⟨a, hdata, ha, hahex⟩
      rw [h1, Option.some_bind, dashRun_eq_some.mpr rfl, Option.some_bind,
        (hexRun_eq_some 4 _ _).mpr ⟨b, rfl, hb, hbhex⟩, Option.some_bind,
        dashRun_eq_some.mpr rfl, Option.some_bind,
        (hexRun_eq_some 4 _ _).mpr ⟨c, rfl, hc, hchex⟩, Option.some_bind,
        dashRun_eq_some.mpr rfl, Option.some_bind,
        (hexRun_eq_some 4 _ _).mpr ⟨d, rfl, hd, hdhex⟩, Option.some_bind,
        dashRun_eq_some.mpr rfl, Option.some_bind,
        (hexRun_eq_some 12 _ _).mpr ⟨e, (List.append_nil e).symm, he, hehex⟩]
  · intro isAuthLoading isAuthenticated id h
    unfold shouldFetchSlideInfo at h
    simp only [Bool.and_eq_true] at h
    exact h.2

/-- C10: the public preview URL of slide index i of a session is
API_BASE_URL/image/sessionId/images/page_N.png with N = i + 1: the
0-based slide index is mapped to the 1-based page image filename. -/
theorem image_url_C10 (apiBaseUrl sessionId : String) (slideIndex : Nat) :
    getSlideImageUrl apiBaseUrl sessionId slideIndex =
      claimedSlideImageUrl apiBaseUrl sessionId (slideIndex + 1) := by
  unfold getSlideImageUrl claimedSlideImageUrl
  apply String.ext
  simp [String.join, String.data_append]

/-- Witness for C1 at the concrete fixture run. -/
theorem generate_envelope_C1_witness :
    ((generate_presentation fixtureEnv id false fixtureBrief).envelope.status = "success" ∧
      ∃ d, (generate_presentation fixtureEnv id false fixtureBrief).envelope.data = some d ∧
        d.metadata.total_slides = d.slides.length ∧
        ∀ (g : Nat) (s : SlideContent),
          d.slides[g]? = some s → s.global_slide_index = g) ∨
    ((generate_presentation fixtureEnv id false fixtureBrief).envelope.status = "error" ∧
      (generate_presentation fixtureEnv id false fixtureBrief).envelope.data = none) :=
  generate_envelope_C1 fixtureEnv id false fixtureBrief ⟨by decide, by decide⟩

/-- Witness for C2: a concrete successful edit of the fixture deck at
address (1, 0). -/
theorem edit_frame_C2_witness :
    ∃ old core bytes,
      find_slide fixtureDeck.session.slides 1 0 = some old ∧
      fixtureEnv.expand_edit old "add a chart" = some core ∧
      fixtureEnv.render (enrich_slide fixtureEnv (regenerate old core)) = some bytes ∧
      (edit_slide fixtureEnv fixtureDeck 1 0 "add a chart" none).deck.document =
        fixtureDeck.document.set old.global_slide_index bytes ∧
      (edit_slide fixtureEnv fixtureDeck 1 0 "add a chart" none).deck.document.length =
        fixtureDeck.document.length ∧
      (edit_slide fixtureEnv fixtureDeck 1 0 "add a chart"
          none).deck.document[old.global_slide_index]? = some bytes ∧
      ∀ j : Nat, j ≠ old.global_slide_index →
        (edit_slide fixtureEnv fixtureDeck 1 0 "add a chart" none).deck.document[j]? =
          fixtureDeck.document[j]? :=
  edit_frame_C2 fixtureEnv fixtureDeck 1 0 "add a chart" none (by decide) (by decide)

/-- Witness for C3: a concrete out-of-range edit of the fixture deck. -/
theorem edit_atomic_C3_witness :
    (edit_slide fixtureEnv fixtureDeck 9 0 "p" none).envelope.message =
        "Invalid section or slide index" ∧
    (edit_slide fixtureEnv fixtureDeck 9 0 "p" none).deck = fixtureDeck :=
  (edit_atomic_C3 fixtureEnv fixtureDeck 9 0 "p" none).2 (by decide)

/-- Witness for C4: the all-fail run yields an error envelope with
empty data and a vocabulary message. -/
theorem envelope_contract_C4_witness :
    (generate_presentation allFailEnv id false fixtureBrief).envelope.data = none ∧
      genVocab (generate_presentation allFailEnv id false fixtureBrief).envelope.message :=
  (envelope_contract_C4 allFailEnv id false fixtureBrief fixtureDeck 0 0 "p" none).1.2
    (by decide)

/-- Witness for C5 at the fixture generation run and a fixture edit. -/
theorem index_invariant_C5_witness :
    slideInvariant (((generate_presentation fixtureEnv id false
        fixtureBrief).envelope.data.getD emptyGenData).slides) = true ∧
    slideInvariant
      ((edit_slide fixtureEnv fixtureDeck 1 0 "add a chart"
        none).deck.session.slides) = true :=
  ⟨index_invariant_C5.1 fixtureEnv id false fixtureBrief _ (by decide),
   index_invariant_C5.2 fixtureEnv fixtureDeck 1 0 "add a chart" none
     (by decide) (by decide)⟩

/-- Witness for C6: the all-fail fixture run. -/
theorem all_fail_never_assembles_C6_witness :
    (generate_presentation allFailEnv id false fixtureBrief).envelope =
        errEnv "Failed to generate any valid slides" ∧
    GenState.ASSEMBLING ∉ (generate_presentation allFailEnv id false fixtureBrief).trace ∧
    (generate_presentation allFailEnv id false fixtureBrief).deck = none :=
  all_fail_never_assembles_C6 allFailEnv id false fixtureBrief fixtureOutline
    (fun l => List.Perm.refl l) rfl (fun p _ => rfl)

/-- Witness for C7: the fixture diagram agent fails on the slide at
global position 1 (title B) and the fixture run still reaches DONE
with that slide lacking a diagram. -/
theorem enrichment_best_effort_C7_witness :
    (generate_presentation fixtureEnv id false fixtureBrief).envelope.status = "success" ∧
    (generate_presentation fixtureEnv id false fixtureBrief).trace.getLast? =
        some GenState.DONE ∧
    ∃ d, (generate_presentation fixtureEnv id false fixtureBrief).envelope.data = some d ∧
      ∃ s2, d.slides[1]? = some s2 ∧
        (fixtureEnv.diagram_agent ((recompute_indices (reorder fixtureOutline
            (id (expand_all fixtureEnv fixtureOutline))))[1]?.getD emptySlide) =
            EnrichOutcome.failed →
          s2.has_diagrams = false ∧ s2.diagram = none) ∧
        (fixtureEnv.image_agent (apply_diagram fixtureEnv
            ((recompute_indices (reorder fixtureOutline
              (id (expand_all fixtureEnv fixtureOutline))))[1]?.getD emptySlide)) =
            EnrichOutcome.failed →
          s2.has_images = false ∧ s2.image = none) :=
  enrichment_best_effort_C7 fixtureEnv id false fixtureBrief fixtureOutline 1 _
    (fun l => List.Perm.refl l) rfl (by decide) (fun t => rfl) (by decide)

/-- Witness for C8: reversal as a concrete completion order over the
fixture run. -/
theorem parallel_sequential_equiv_C8_witness :
    (generate_presentation fixtureEnv List.reverse true fixtureBrief).deck =
        (generate_presentation fixtureEnv id false fixtureBrief).deck ∧
    (generate_presentation fixtureEnv List.reverse true fixtureBrief).envelope.status =
        (generate_presentation fixtureEnv id false fixtureBrief).envelope.status ∧
    (generate_presentation fixtureEnv List.reverse true fixtureBrief).envelope.message =
        (generate_presentation fixtureEnv id false fixtureBrief).envelope.message ∧
    (generate_presentation fixtureEnv List.reverse true
        fixtureBrief).envelope.data.map GenData.slides =
      (generate_presentation fixtureEnv id false
        fixtureBrief).envelope.data.map GenData.slides :=
  parallel_sequential_equiv_C8 fixtureEnv fixtureBrief List.reverse
    (fun l => List.reverse_perm l)

/-- Witness for C9: the fetch guard implies validity at a concrete
UUID-shaped id. -/
theorem session_guard_C9_witness :
    isValidSessionId "123e4567-e89b-12d3-a456-426614174000" = true :=
  session_guard_C9.2 false true "123e4567-e89b-12d3-a456-426614174000" (by decide)

end SlideGenX
